import Mathlib

/-!
Shallow embedding of `src/applications/TextMesher/text_mesher.cpp`
(class `easy3d::TextMesher`).

External collaborators are modelled abstractly, following the module
boundary the code itself draws:
* the FreeType face (glyph lookup/load, metrics, kerning, and the FTGL
  vectoriser output) is a `Face` record of functions; a glyph that fails
  any of the three load/get/format checks is `none` (all three failure
  branches of the source behave identically: return the empty
  `CharContour`);
* the polygon tessellator is observed through the trace of calls made to
  it (`TessCmd` list) and an abstract output function
  `tessOut : List TessCmd → List (Vec3 × Vec3 × Vec3)` resolving the
  triangle index triples of `get_triangle` through the vertex buffer;
* `geom::point_in_polygon` is an abstract predicate parameter `pip`;
* the `SurfaceMesh` sink is an append-only record of vertices and
  triangle index triples; `add_vertex` returns the index of the vertex
  it appends.

Floating-point pen coordinates are modelled by `ℚ`; the integer
divisions by the 26.6 scale factor 64 on `kerning.x` and `advance.x`
are C truncated division (`Int.tdiv`), the double division on contour
points is exact `ℚ` division.
-/

namespace TextMesherModel

/-- A 2D point (easy3d `vec2`). -/
structure Vec2 where
  x : ℚ
  y : ℚ
deriving DecidableEq

/-- A 3D point (easy3d `vec3`). -/
structure Vec3 where
  x : ℚ
  y : ℚ
  z : ℚ
deriving DecidableEq

/-- Embeds `TextMesher::Contour`: a closed polygon with the winding flag
reported by the outline source. -/
structure Contour where
  points : List Vec2
  clockwise : Bool
deriving DecidableEq

/-- Embeds `TextMesher::CharContour`: the character code plus the contours of
its glyph. -/
structure CharContour where
  character : Nat
  contours : List Contour
deriving DecidableEq

/-- Per-glyph data supplied by the font collaborator once the three
load/get/format checks succeed: the 26.6 side-bearing deltas and
horizontal advance, and the vectorised outline (per contour: the
direction flag and the raw point coordinates, already in double
precision as returned by `Contour::GetPoint`). -/
structure GlyphData where
  lsb_delta : Int
  rsb_delta : Int
  advance_x : Int
  outline : List (Bool × List (ℚ × ℚ))
deriving DecidableEq

/-- The FreeType face collaborator. `glyph i = none` models any of the
three per-glyph failures (`FT_Load_Glyph`, `FT_Get_Glyph`, non-outline
format), which the source treats identically. -/
structure Face where
  char_index : Nat → Nat
  glyph : Nat → Option GlyphData
  has_kerning : Bool
  kerning : Nat → Nat → Int

/-- The mutable fields of `TextMesher` relevant to generation. -/
structure MesherState where
  ready : Bool
  prev_char_index : Nat
  cur_char_index : Nat
  prev_rsb_delta : Int
deriving DecidableEq

/-- The `SurfaceMesh` sink: append-only vertex and triangle buffers. -/
structure Mesh where
  vertices : List Vec3
  triangles : List (Nat × Nat × Nat)
deriving DecidableEq

/-- Embeds `SurfaceMesh::add_vertex`: appends and returns the fresh index. -/
def addVertexM (m : Mesh) (v : Vec3) : Mesh × Nat :=
  (⟨m.vertices ++ [v], m.triangles⟩, m.vertices.length)

/-- One `mesh->add_triangle(mesh->add_vertex p, mesh->add_vertex q,
mesh->add_vertex r)` compound call: three fresh vertices, one triangle
over their indices. -/
def addTri (m : Mesh) (p q r : Vec3) : Mesh :=
  let ma := addVertexM m p
  let mb := addVertexM ma.1 q
  let mc := addVertexM mb.1 r
  ⟨mc.1.vertices, mc.1.triangles ++ [(ma.2, mb.2, mc.2)]⟩

/-- Embeds `TextMesher::generate_contours(char ch, float& x, float& y)`.
Returns the `CharContour`, the new pen `x` and the new mesher state
(`y` is taken by reference but never written by the source). -/
def generateContoursChar (face : Face) (st : MesherState) (ch : Nat)
    (x y : ℚ) : CharContour × ℚ × MesherState :=
  let cur := face.char_index ch
  let st1 : MesherState := { st with cur_char_index := cur }
  match face.glyph cur with
  | none => (⟨ch, []⟩, x, st1)
  | some g =>
    let x1 := if face.has_kerning && (st1.prev_char_index != 0)
              then x + ((Int.tdiv (face.kerning st1.prev_char_index cur) 64 : Int) : ℚ)
              else x
    let x2 := if 32 ≤ st1.prev_rsb_delta - g.lsb_delta then x1 - 1
              else if st1.prev_rsb_delta - g.lsb_delta < -32 then x1 + 1
              else x1
    let st2 : MesherState := { st1 with prev_rsb_delta := g.rsb_delta }
    let cs : List Contour := g.outline.map (fun dp =>
      { points := dp.2.map (fun d => ⟨d.1 / 64 + x2, d.2 / 64 + y⟩),
        clockwise := dp.1 })
    let st3 : MesherState := { st2 with prev_char_index := cur }
    let x3 := x2 + ((Int.tdiv g.advance_x 64 : Int) : ℚ)
    (⟨ch, cs⟩, x3, st3)

/-- The loop body of the string-level `generate_contours`: process the
characters left to right, threading pen `x` and the mesher state. -/
def contoursLoop (face : Face) :
    List Nat → MesherState → ℚ → ℚ → List CharContour × MesherState
  | [], st, _, _ => ([], st)
  | ch :: rest, st, x, y =>
    let r := generateContoursChar face st ch x y
    let rr := contoursLoop face rest r.2.2 r.2.1 y
    (r.1 :: rr.1, rr.2)

/-- The pen-state reset at the start of the string-level
`generate_contours`. -/
def resetPen (st : MesherState) : MesherState :=
  { st with prev_char_index := 0, cur_char_index := 0, prev_rsb_delta := 0 }

/-- Embeds `TextMesher::generate_contours(const std::string&, float x, float y,
std::vector<CharContour>& contours)`: early-out when not ready, else
reset the pen state and push one `CharContour` per character onto the
caller's vector. Returns the vector and the new state. -/
def generateContoursStr (face : Face) (st : MesherState) (text : List Nat)
    (x y : ℚ) (contours : List CharContour) :
    List CharContour × MesherState :=
  if st.ready = false then (contours, st)
  else
    let r := contoursLoop face text (resetPen st) x y
    (contours ++ r.1, r.2)

/-- Winding rules passed to `Tessellator::set_winding_rule`. -/
inductive WindingRule where
  | odd
  | nonzero
deriving DecidableEq

/-- One call to the tessellation collaborator, recorded in order. -/
inductive TessCmd where
  | beginPolygon (normal : Vec3)
  | setWindingRule (rule : WindingRule)
  | beginContour
  | addVertex (v : Vec3)
  | endContour
  | endPolygon
deriving DecidableEq

/-- The `is_inside` lambda of `TextMesher::generate`: every point of
`ca` lies inside the polygon `cb` according to the point-in-polygon
collaborator `pip`. -/
def is_inside (pip : Vec2 → Contour → Bool) (ca cb : Contour) : Bool :=
  ca.points.all (fun p => pip p cb)

/-- The hole-candidate condition of the inner loop of
`TextMesher::generate` (line 196-198), on an `(inner_index, inner_contour)`
pair against the outer `contour` at `index`. -/
def holeTest (pip : Vec2 → Contour → Bool) (index : Nat) (contour : Contour)
    (ic : Nat × Contour) : Bool :=
  ic.1 != index && ic.2.clockwise != contour.clockwise &&
    is_inside pip ic.2 contour

/-- One contour submission: `set_winding_rule`, `begin_contour`, one
`add_vertex` per point (lifted to z = 0), `end_contour`. -/
def submitContour (rule : WindingRule) (c : Contour) (tr : List TessCmd) :
    List TessCmd :=
  let t1 := tr ++ [TessCmd.setWindingRule rule]
  let t2 := t1 ++ [TessCmd.beginContour]
  let t3 := c.points.foldl (fun t p => t ++ [TessCmd.addVertex ⟨p.x, p.y, 0⟩]) t2
  t3 ++ [TessCmd.endContour]

/-- The cap-tessellation block of `TextMesher::generate` for one contour
of a character: only a clockwise contour opens a polygon; it is
submitted with the NONZERO rule, then every contour of the character
passing `holeTest` is submitted with the ODD rule, then the polygon is
ended. A non-clockwise contour submits nothing. -/
def tessContour (pip : Vec2 → Contour → Bool) (ch : List Contour)
    (index : Nat) (contour : Contour) (tr : List TessCmd) : List TessCmd :=
  if contour.clockwise then
    let t1 := tr ++ [TessCmd.beginPolygon ⟨0, 0, -1⟩]
    let t2 := submitContour WindingRule.nonzero contour t1
    let t3 := ch.enum.foldl (fun t ic =>
      if holeTest pip index contour ic
      then submitContour WindingRule.odd ic.2 t
      else t) t2
    t3 ++ [TessCmd.endPolygon]
  else tr

/-- The side-wall emission for the edge starting at point `p` of a
contour (line 175-182): quad from the bottom edge to the top edge, split
into two triangles. -/
def sideWallEdge (extrude : ℚ) (pts : List Vec2) (p : Nat) (m : Mesh) :
    Mesh :=
  let pa := pts.getD p ⟨0, 0⟩
  let pb := pts.getD ((p + 1) % pts.length) ⟨0, 0⟩
  let a : Vec3 := ⟨pa.x, pa.y, 0⟩
  let b : Vec3 := ⟨pb.x, pb.y, 0⟩
  let c : Vec3 := ⟨a.x, a.y, a.z + extrude⟩
  let d : Vec3 := ⟨b.x, b.y, b.z + extrude⟩
  addTri (addTri m c b a) c d b

/-- Side walls of one contour: one quad (two triangles) per edge. -/
def sideWalls (extrude : ℚ) (c : Contour) (m : Mesh) : Mesh :=
  (List.range c.points.length).foldl
    (fun m p => sideWallEdge extrude c.points p m) m

/-- Side walls of every contour of one character. -/
def charWalls (extrude : ℚ) (ch : CharContour) (m : Mesh) : Mesh :=
  ch.contours.foldl (fun m c => sideWalls extrude c m) m

/-- Side walls of every character. -/
def wallsAll (extrude : ℚ) (chars : List CharContour) (m : Mesh) : Mesh :=
  chars.foldl (fun m ch => charWalls extrude ch m) m

/-- Tessellator submissions for every contour of one character. -/
def charTrace (pip : Vec2 → Contour → Bool) (ch : CharContour)
    (tr : List TessCmd) : List TessCmd :=
  ch.contours.enum.foldl
    (fun t ic => tessContour pip ch.contours ic.1 ic.2 t) tr

/-- Tessellator submissions for every character. -/
def traceAll (pip : Vec2 → Contour → Bool) (chars : List CharContour)
    (tr : List TessCmd) : List TessCmd :=
  chars.foldl (fun t ch => charTrace pip ch t) tr

/-- Lift a vertex by the extrusion depth. -/
def raise (extrude : ℚ) (v : Vec3) : Vec3 :=
  ⟨v.x, v.y, v.z + extrude⟩

/-- The cap-emission loop (line 215-229): for every tessellator triangle
`(va, vb, vc)` emit the bottom triangle and the reversed, raised top
triangle. -/
def capTris (extrude : ℚ) (caps : List (Vec3 × Vec3 × Vec3)) (m : Mesh) :
    Mesh :=
  caps.foldl (fun m t =>
    addTri (addTri m t.1 t.2.1 t.2.2)
      (raise extrude t.2.2) (raise extrude t.2.1) (raise extrude t.1)) m

/-- Embeds `TextMesher::generate(SurfaceMesh*, text, x, y, extrude)`.
In the source the side-wall emission and the tessellator submissions are
interleaved in one loop over the contours; the two state threads (mesh
sink, tessellator) never interact until the tessellator output is read
after the loop, so they are modelled as two folds over the same
contours in the same order. -/
def generate (face : Face)
    (tessOut : List TessCmd → List (Vec3 × Vec3 × Vec3))
    (pip : Vec2 → Contour → Bool) (st : MesherState) (mesh : Mesh)
    (text : List Nat) (x y extrude : ℚ) : Bool × Mesh × MesherState :=
  if st.ready = false then (false, mesh, st)
  else
    let r := generateContoursStr face st text x y []
    if r.1.isEmpty then (false, mesh, r.2)
    else
      let m1 := wallsAll extrude r.1 mesh
      let trace := traceAll pip r.1 []
      let caps := tessOut trace
      let m2 := capTris extrude caps m1
      (true, m2, r.2)

/-! ### Helper lemmas: tessellator trace reshaping -/

/-- The commands one `submitContour` call appends. -/
def contourCmds (rule : WindingRule) (c : Contour) : List TessCmd :=
  TessCmd.setWindingRule rule :: TessCmd.beginContour ::
    (c.points.map (fun p => TessCmd.addVertex ⟨p.x, p.y, 0⟩) ++
      [TessCmd.endContour])

/-- A sequence of `addTri` calls, one per listed triangle. -/
def addTris (m : Mesh) (l : List (Vec3 × Vec3 × Vec3)) : Mesh :=
  l.foldl (fun m t => addTri m t.1 t.2.1 t.2.2) m

/-- The triangle index triples produced by `k` consecutive `addTri`
calls starting from a buffer of `v0` vertices: each triangle uses its
own three fresh, consecutive vertex indices. -/
def freshTris (v0 k : Nat) : List (Nat × Nat × Nat) :=
  (List.range k).map (fun i => (v0 + 3 * i, v0 + 3 * i + 1, v0 + 3 * i + 2))

/-- The two side-wall triangles of one contour edge, as values. -/
def sideEdgeTris (extrude : ℚ) (pts : List Vec2) (p : Nat) :
    List (Vec3 × Vec3 × Vec3) :=
  let pa := pts.getD p ⟨0, 0⟩
  let pb := pts.getD ((p + 1) % pts.length) ⟨0, 0⟩
  let a : Vec3 := ⟨pa.x, pa.y, 0⟩
  let b : Vec3 := ⟨pb.x, pb.y, 0⟩
  let c : Vec3 := ⟨a.x, a.y, a.z + extrude⟩
  let d : Vec3 := ⟨b.x, b.y, b.z + extrude⟩
  [(c, b, a), (c, d, b)]

/-- All side-wall triangles of one contour. -/
def sideTris (extrude : ℚ) (c : Contour) : List (Vec3 × Vec3 × Vec3) :=
  (List.range c.points.length).flatMap (sideEdgeTris extrude c.points)

/-- All side-wall triangles of one character. -/
def charTris (extrude : ℚ) (ch : CharContour) : List (Vec3 × Vec3 × Vec3) :=
  ch.contours.flatMap (sideTris extrude)

/-- All side-wall triangles of a list of characters. -/
def wallsTris (extrude : ℚ) (chars : List CharContour) :
    List (Vec3 × Vec3 × Vec3) :=
  chars.flatMap (charTris extrude)

/-- Bottom and top triangle emitted for one tessellator cap triangle. -/
def capPairTris (extrude : ℚ) (t : Vec3 × Vec3 × Vec3) :
    List (Vec3 × Vec3 × Vec3) :=
  [(t.1, t.2.1, t.2.2),
   (raise extrude t.2.2, raise extrude t.2.1, raise extrude t.1)]

/-- Total number of contour edges over a list of characters (each
contour of `n` points has `n` side edges). -/
def totalEdges (chars : List CharContour) : Nat :=
  (chars.map (fun ch => (ch.contours.map (fun c => c.points.length)).sum)).sum

/-- A face whose every glyph fails one of the load/get/format checks. -/
def faceFail : Face := ⟨fun _ => 0, fun _ => none, false, fun _ _ => 0⟩

/-- A face with one trivial glyph (zero metrics, empty outline) at
index 1. -/
def glyphDelta : GlyphData := ⟨0, 0, 0, []⟩

def faceDelta : Face := ⟨fun _ => 1, fun _ => some glyphDelta, false, fun _ _ => 0⟩

def stReady : MesherState := ⟨true, 0, 0, 0⟩

def stNotReady : MesherState := ⟨false, 5, 6, 7⟩

/-- A ready state whose recorded previous right-side-bearing delta is
exactly 32. -/
def stDelta : MesherState := ⟨true, 0, 0, 32⟩

def meshEmpty : Mesh := ⟨[], []⟩

def tessNone : List TessCmd → List (Vec3 × Vec3 × Vec3) := fun _ => []

def pipNone : Vec2 → Contour → Bool := fun _ _ => false

/-- A clockwise (outer) triangle contour. -/
def cwTri : Contour := ⟨[⟨0, 0⟩, ⟨2, 0⟩, ⟨1, 2⟩], true⟩

/-- A counter-clockwise one-point contour. -/
def ccwPt : Contour := ⟨[⟨1, 1⟩], false⟩

theorem foldl_snoc_map {α β : Type} (f : α → β) :
    ∀ (l : List α) (tr : List β),
      l.foldl (fun t p => t ++ [f p]) tr = tr ++ l.map f := by
  intro l
  induction l with
  | nil => intro tr; simp
  | cons p rest ih =>
      intro tr
      simp only [List.foldl_cons, List.map_cons, ih]
      simp

theorem submitContour_eq (rule : WindingRule) (c : Contour)
    (tr : List TessCmd) :
    submitContour rule c tr = tr ++ contourCmds rule c := by
  simp only [submitContour, contourCmds, foldl_snoc_map]
  simp

theorem holes_foldl (pip : Vec2 → Contour → Bool) (index : Nat)
    (contour : Contour) :
    ∀ (lst : List (Nat × Contour)) (tr : List TessCmd),
      lst.foldl (fun t ic =>
          if holeTest pip index contour ic
          then submitContour WindingRule.odd ic.2 t else t) tr =
        tr ++ (lst.filter (holeTest pip index contour)).flatMap
          (fun ic => contourCmds WindingRule.odd ic.2) := by
  intro lst
  induction lst with
  | nil => intro tr; simp
  | cons ic rest ih =>
      intro tr
      rw [List.foldl_cons, List.filter_cons]
      by_cases h : holeTest pip index contour ic = true
      · rw [if_pos h, if_pos h, submitContour_eq, ih, List.flatMap_cons]
        simp
      · rw [if_neg h, if_neg h, ih]

theorem tessContour_clockwise_eq (pip : Vec2 → Contour → Bool)
    (ch : List Contour) (index : Nat) (contour : Contour)
    (tr : List TessCmd) (h : contour.clockwise = true) :
    tessContour pip ch index contour tr =
      tr ++ [TessCmd.beginPolygon ⟨0, 0, -1⟩] ++
        contourCmds WindingRule.nonzero contour ++
        (ch.enum.filter (holeTest pip index contour)).flatMap
          (fun ic => contourCmds WindingRule.odd ic.2) ++
        [TessCmd.endPolygon] := by
  simp only [tessContour, h, if_true]
  rw [holes_foldl pip index contour ch.enum, submitContour_eq]

theorem tessContour_not_clockwise (pip : Vec2 → Contour → Bool)
    (ch : List Contour) (index : Nat) (contour : Contour)
    (tr : List TessCmd) (h : contour.clockwise = false) :
    tessContour pip ch index contour tr = tr := by
  simp [tessContour, h]

/-! ### Helper lemmas: the mesh sink is a sequence of fresh-vertex
triangle insertions -/



theorem addTri_eq (m : Mesh) (p q r : Vec3) :
    addTri m p q r =
      ⟨m.vertices ++ [p, q, r],
       m.triangles ++ [(m.vertices.length, m.vertices.length + 1,
         m.vertices.length + 2)]⟩ := by
  simp [addTri, addVertexM]

theorem freshTris_succ (v0 k : Nat) :
    freshTris v0 (k + 1) =
      (v0, v0 + 1, v0 + 2) :: freshTris (v0 + 3) k := by
  simp only [freshTris, List.range_succ_eq_map, List.map_cons,
    List.map_map, Nat.mul_zero, Nat.add_zero]
  refine congrArg₂ List.cons rfl ?_
  apply List.map_congr_left
  intro i _
  simp only [Function.comp_apply, Prod.mk.injEq, Nat.succ_eq_add_one]
  omega

theorem addTris_spec :
    ∀ (l : List (Vec3 × Vec3 × Vec3)) (m : Mesh),
      addTris m l =
        ⟨m.vertices ++ l.flatMap (fun t => [t.1, t.2.1, t.2.2]),
         m.triangles ++ freshTris m.vertices.length l.length⟩ := by
  intro l
  induction l with
  | nil =>
      intro m
      simp [addTris, freshTris]
  | cons t rest ih =>
      intro m
      have step : addTris m (t :: rest) =
          addTris (addTri m t.1 t.2.1 t.2.2) rest := rfl
      rw [step, ih, addTri_eq]
      dsimp only
      rw [Mesh.mk.injEq]
      constructor
      · simp
      · have hl : (m.vertices ++ [t.1, t.2.1, t.2.2]).length =
            m.vertices.length + 3 := by simp
        rw [hl, List.length_cons, freshTris_succ]
        simp

theorem addTris_append (m : Mesh) (l1 l2 : List (Vec3 × Vec3 × Vec3)) :
    addTris m (l1 ++ l2) = addTris (addTris m l1) l2 :=
  List.foldl_append _ _ _ _

theorem addTris_triangles (m : Mesh) (l : List (Vec3 × Vec3 × Vec3)) :
    (addTris m l).triangles =
      m.triangles ++ freshTris m.vertices.length l.length := by
  rw [addTris_spec]

theorem addTris_vertices (m : Mesh) (l : List (Vec3 × Vec3 × Vec3)) :
    (addTris m l).vertices =
      m.vertices ++ l.flatMap (fun t => [t.1, t.2.1, t.2.2]) := by
  rw [addTris_spec]

/-- A fold of mesh-appending steps, each equal to an `addTris`, is the
`addTris` of the concatenated triangle lists. -/
theorem foldl_addTris {α : Type} (F : α → Mesh → Mesh)
    (g : α → List (Vec3 × Vec3 × Vec3))
    (hF : ∀ a m, F a m = addTris m (g a)) :
    ∀ (xs : List α) (m : Mesh),
      xs.foldl (fun m a => F a m) m = addTris m (xs.flatMap g) := by
  intro xs
  induction xs with
  | nil => intro m; simp [addTris]
  | cons a rest ih =>
      intro m
      rw [List.foldl_cons, hF, ih, List.flatMap_cons, addTris_append]


theorem sideWallEdge_eq (extrude : ℚ) (pts : List Vec2) (p : Nat)
    (m : Mesh) :
    sideWallEdge extrude pts p m = addTris m (sideEdgeTris extrude pts p) :=
  rfl


theorem sideWalls_eq (extrude : ℚ) (c : Contour) (m : Mesh) :
    sideWalls extrude c m = addTris m (sideTris extrude c) :=
  foldl_addTris _ _ (sideWallEdge_eq extrude c.points) _ m


theorem charWalls_eq (extrude : ℚ) (ch : CharContour) (m : Mesh) :
    charWalls extrude ch m = addTris m (charTris extrude ch) :=
  foldl_addTris _ _ (sideWalls_eq extrude) _ m


theorem wallsAll_eq (extrude : ℚ) (chars : List CharContour) (m : Mesh) :
    wallsAll extrude chars m = addTris m (wallsTris extrude chars) :=
  foldl_addTris _ _ (charWalls_eq extrude) _ m


theorem capTris_eq (extrude : ℚ) :
    ∀ (caps : List (Vec3 × Vec3 × Vec3)) (m : Mesh),
      capTris extrude caps m =
        addTris m (caps.flatMap (capPairTris extrude)) := by
  intro caps
  induction caps with
  | nil => intro m; rfl
  | cons t rest ih =>
      intro m
      have h1 : capTris extrude (t :: rest) m =
          capTris extrude rest (addTris m (capPairTris extrude t)) := rfl
      rw [h1, ih, List.flatMap_cons, addTris_append]

/-! ### Helper lemmas: counting -/

theorem length_flatMap_const {β γ : Type} (g : β → List γ) (k : Nat)
    (hg : ∀ a, (g a).length = k) :
    ∀ (l : List β), (l.flatMap g).length = k * l.length := by
  intro l
  induction l with
  | nil => simp
  | cons a rest ih =>
      rw [List.flatMap_cons, List.length_append, hg, ih, List.length_cons]
      ring

theorem freshTris_length (v0 k : Nat) : (freshTris v0 k).length = k := by
  simp [freshTris]

theorem addTris_triangles_length (m : Mesh) (l : List (Vec3 × Vec3 × Vec3)) :
    (addTris m l).triangles.length = m.triangles.length + l.length := by
  rw [addTris_triangles, List.length_append, freshTris_length]

theorem addTris_vertices_length (m : Mesh) (l : List (Vec3 × Vec3 × Vec3)) :
    (addTris m l).vertices.length = m.vertices.length + 3 * l.length := by
  rw [addTris_vertices, List.length_append,
    length_flatMap_const (fun t : Vec3 × Vec3 × Vec3 => [t.1, t.2.1, t.2.2])
      3 (fun _ => rfl)]

theorem sideTris_length (extrude : ℚ) (c : Contour) :
    (sideTris extrude c).length = 2 * c.points.length := by
  rw [sideTris,
    length_flatMap_const (sideEdgeTris extrude c.points) 2 (fun _ => rfl),
    List.length_range]


theorem charTris_length (extrude : ℚ) (ch : CharContour) :
    (charTris extrude ch).length =
      2 * (ch.contours.map (fun c => c.points.length)).sum := by
  rw [charTris]
  induction ch.contours with
  | nil => simp
  | cons c rest ih =>
      rw [List.flatMap_cons, List.length_append, sideTris_length, ih,
        List.map_cons, List.sum_cons]
      ring

theorem wallsTris_length (extrude : ℚ) (chars : List CharContour) :
    (wallsTris extrude chars).length = 2 * totalEdges chars := by
  rw [wallsTris]
  induction chars with
  | nil => simp [totalEdges]
  | cons ch rest ih =>
      rw [List.flatMap_cons, List.length_append, charTris_length, ih]
      simp only [totalEdges, List.map_cons, List.sum_cons]
      ring

theorem capPairs_length (extrude : ℚ) (caps : List (Vec3 × Vec3 × Vec3)) :
    (caps.flatMap (capPairTris extrude)).length = 2 * caps.length :=
  length_flatMap_const (capPairTris extrude) 2 (fun _ => rfl) caps

/-! ### Helper lemmas: the contour loop -/

theorem genChar_character (face : Face) (st : MesherState) (ch : Nat)
    (x y : ℚ) : (generateContoursChar face st ch x y).1.character = ch := by
  rcases h : face.glyph (face.char_index ch) with _ | g <;>
    simp [generateContoursChar, h]

theorem contoursLoop_map (face : Face) :
    ∀ (text : List Nat) (st : MesherState) (x y : ℚ),
      ((contoursLoop face text st x y).1.map (fun cc => cc.character)) =
        text := by
  intro text
  induction text with
  | nil => intros; rfl
  | cons ch rest ih =>
      intro st x y
      simp only [contoursLoop, List.map_cons, genChar_character, ih]

theorem contoursLoop_length (face : Face) (text : List Nat)
    (st : MesherState) (x y : ℚ) :
    (contoursLoop face text st x y).1.length = text.length := by
  have h := contoursLoop_map face text st x y
  have h2 := congrArg List.length h
  rwa [List.length_map] at h2

/-! ### Concrete fixtures for witnesses and counterexamples -/












/-! ### Helper lemmas: the string-level entry points -/

theorem resetPen_idem (st : MesherState) :
    resetPen (resetPen st) = resetPen st := rfl

theorem generateContoursStr_ready (face : Face) (st : MesherState)
    (text : List Nat) (x y : ℚ) (cs : List CharContour)
    (hr : st.ready = true) :
    generateContoursStr face st text x y cs =
      (cs ++ (contoursLoop face text (resetPen st) x y).1,
       (contoursLoop face text (resetPen st) x y).2) := by
  rw [generateContoursStr, if_neg (by simp [hr])]

theorem generate_success_eq (face : Face)
    (tessOut : List TessCmd → List (Vec3 × Vec3 × Vec3))
    (pip : Vec2 → Contour → Bool) (st : MesherState) (mesh : Mesh)
    (text : List Nat) (x y extrude : ℚ)
    (hr : st.ready = true) (ht : text ≠ []) :
    generate face tessOut pip st mesh text x y extrude =
      (true,
       addTris mesh
         (wallsTris extrude (generateContoursStr face st text x y []).1 ++
          (tessOut (traceAll pip (generateContoursStr face st text x y []).1
            [])).flatMap (capPairTris extrude)),
       (generateContoursStr face st text x y []).2) := by
  have hlen : (generateContoursStr face st text x y []).1.length =
      text.length := by
    rw [generateContoursStr_ready face st text x y [] hr]
    simp [contoursLoop_length]
  have hne : ¬ ((generateContoursStr face st text x y []).1.isEmpty = true) := by
    rw [List.isEmpty_iff]
    intro hc
    rw [hc] at hlen
    exact ht (List.length_eq_zero.mp hlen.symm)
  simp only [generate]
  rw [if_neg (show ¬ (st.ready = false) by simp [hr]), if_neg hne,
    wallsAll_eq, capTris_eq, ← addTris_append]

/-! ### Claims -/

/-- C1, counterexample: in the ready state, a one-character text whose
glyph fails to load produces one `CharContour` with zero contours — so
no contours at all are produced for the entire string — yet
`generate` returns success, because the emptiness check tests the
per-character list (one entry per character), not the contour count. -/
theorem no_contours_success_counterexample :
    (generateContoursStr faceFail stReady [65] 0 0 []).1 =
      [{ character := 65, contours := [] }] ∧
    (generate faceFail tessNone pipNone stReady meshEmpty [65] 0 0 1).1 =
      true := by
  constructor <;> rfl

/-- C1, amended: in the ready state, `generate` returns failure exactly
when the produced per-character list is empty, which happens exactly
when the text itself is empty (characters whose glyphs fail still
contribute entries). -/
theorem empty_result_iff_empty_text (face : Face)
    (tessOut : List TessCmd → List (Vec3 × Vec3 × Vec3))
    (pip : Vec2 → Contour → Bool) (st : MesherState) (mesh : Mesh)
    (text : List Nat) (x y extrude : ℚ) (hr : st.ready = true) :
    ((generate face tessOut pip st mesh text x y extrude).1 = false ↔
      text = []) := by
  by_cases ht : text = []
  · subst ht
    simp only [iff_true]
    simp only [generate]
    rw [if_neg (show ¬ (st.ready = false) by simp [hr]),
      if_pos (show (generateContoursStr face st [] x y []).1.isEmpty = true by
        rw [generateContoursStr_ready face st [] x y [] hr]; rfl)]
  · rw [generate_success_eq face tessOut pip st mesh text x y extrude hr ht]
    simp [ht]

/-- C1, amended, witness at the empty text. -/
theorem empty_result_iff_empty_text_witness :
    ((generate faceFail tessNone pipNone stReady meshEmpty [] 0 0 1).1 =
      false ↔ ([] : List Nat) = []) :=
  empty_result_iff_empty_text faceFail tessNone pipNone stReady meshEmpty
    [] 0 0 1 rfl

/-- C2: in the non-ready state, `generate` returns failure with the
mesh sink and mesher state untouched (hence no `add_vertex` or
`add_triangle` call), and `generate_contours` returns the caller's
vector and the pen-state fields unchanged. -/
theorem nonready_noop (face : Face)
    (tessOut : List TessCmd → List (Vec3 × Vec3 × Vec3))
    (pip : Vec2 → Contour → Bool) (st : MesherState) (mesh : Mesh)
    (text : List Nat) (x y extrude : ℚ) (cs : List CharContour)
    (h : st.ready = false) :
    generate face tessOut pip st mesh text x y extrude = (false, mesh, st) ∧
    generateContoursStr face st text x y cs = (cs, st) := by
  constructor
  · rw [generate, if_pos h]
  · rw [generateContoursStr, if_pos h]

/-- C2, witness in a concrete non-ready state. -/
theorem nonready_noop_witness :
    generate faceFail tessNone pipNone stNotReady meshEmpty [65] 0 0 1 =
      (false, meshEmpty, stNotReady) ∧
    generateContoursStr faceFail stNotReady [65] 0 0 [] =
      ([], stNotReady) :=
  nonready_noop faceFail tessNone pipNone stNotReady meshEmpty [65] 0 0 1
    [] rfl

/-- C3: for a clockwise contour the tessellation block is, inside one
`begin_polygon`/`end_polygon` pair: the outer contour submitted first
under the NONZERO winding rule, then each classified hole contour
under the ODD winding rule. -/
theorem cap_winding_sequence (pip : Vec2 → Contour → Bool)
    (ch : List Contour) (index : Nat) (contour : Contour)
    (tr : List TessCmd) (h : contour.clockwise = true) :
    tessContour pip ch index contour tr =
      tr ++ [TessCmd.beginPolygon ⟨0, 0, -1⟩] ++
        contourCmds WindingRule.nonzero contour ++
        (ch.enum.filter (holeTest pip index contour)).flatMap
          (fun ic => contourCmds WindingRule.odd ic.2) ++
        [TessCmd.endPolygon] :=
  tessContour_clockwise_eq pip ch index contour tr h

/-- C3, witness on a concrete two-contour character. -/
theorem cap_winding_sequence_witness :
    cwTri.clockwise = true ∧
    tessContour pipNone [cwTri, ccwPt] 0 cwTri [] =
      [] ++ [TessCmd.beginPolygon ⟨0, 0, -1⟩] ++
        contourCmds WindingRule.nonzero cwTri ++
        (([cwTri, ccwPt].enum.filter (holeTest pipNone 0 cwTri)).flatMap
          (fun ic => contourCmds WindingRule.odd ic.2)) ++
        [TessCmd.endPolygon] :=
  ⟨rfl, cap_winding_sequence pipNone [cwTri, ccwPt] 0 cwTri [] rfl⟩

/-- C4: a contour `B` at position `i` of a character's contour list is
classified as a hole of the contour at position `index` exactly when
its clockwise flag differs, its index differs, and every one of its
points lies inside the outer polygon according to the point-in-polygon
test. -/
theorem hole_classification (pip : Vec2 → Contour → Bool)
    (ch : List Contour) (index i : Nat) (contour B : Contour)
    (h : (i, B) ∈ ch.enum) :
    ((i, B) ∈ ch.enum.filter (holeTest pip index contour)) ↔
      (B.clockwise ≠ contour.clockwise ∧ i ≠ index ∧
        ∀ p ∈ B.points, pip p contour = true) := by
  rw [List.mem_filter]
  simp only [h, true_and, holeTest, is_inside, Bool.and_eq_true,
    bne_iff_ne, ne_eq, List.all_eq_true]
  tauto

/-- C4, witness on a concrete two-contour character. -/
theorem hole_classification_witness :
    ((1, ccwPt) ∈ [cwTri, ccwPt].enum) ∧
    (((1, ccwPt) ∈ [cwTri, ccwPt].enum.filter (holeTest pipNone 0 cwTri)) ↔
      (ccwPt.clockwise ≠ cwTri.clockwise ∧ 1 ≠ 0 ∧
        ∀ p ∈ ccwPt.points, pipNone p cwTri = true)) :=
  ⟨by decide, hole_classification pipNone [cwTri, ccwPt] 0 1 cwTri ccwPt
    (by decide)⟩

/-- C5, counterexample: with a recorded previous right-side-bearing
delta of exactly 32 and a current left-side-bearing delta of 0, the
delta equals 32 — it does not exceed +32 — yet the code decrements the
pen (the source tests `>= 32`, not `> 32`): starting from x = 10, with
zero kerning and zero advance, the returned pen x is 9. -/
theorem italic_correction_counterexample :
    stDelta.prev_rsb_delta - glyphDelta.lsb_delta = 32 ∧
    ¬ ((32 : Int) > 32) ∧
    (generateContoursChar faceDelta stDelta 65 10 0).2.1 = 10 - 1 := by
  refine ⟨rfl, by decide, ?_⟩
  simp only [generateContoursChar, faceDelta, glyphDelta, stDelta]
  norm_num

/-- C5, amended: for a glyph that loads, the returned pen x is the
kerning-adjusted x plus the italic correction plus the advance, where
the correction is −1 exactly when the delta (previous rsb-delta minus
current lsb-delta) is at least +32, +1 exactly when it is less than
−32, and 0 otherwise. -/
theorem italic_correction (face : Face) (st : MesherState) (ch : Nat)
    (x y : ℚ) (g : GlyphData)
    (hg : face.glyph (face.char_index ch) = some g) :
    (generateContoursChar face st ch x y).2.1 =
      (let xk := if face.has_kerning && (st.prev_char_index != 0)
                 then x + ((Int.tdiv (face.kerning st.prev_char_index
                   (face.char_index ch)) 64 : Int) : ℚ)
                 else x
       let corr : ℚ := if 32 ≤ st.prev_rsb_delta - g.lsb_delta then -1
                       else if st.prev_rsb_delta - g.lsb_delta < -32 then 1
                       else 0
       xk + corr + ((Int.tdiv g.advance_x 64 : Int) : ℚ)) := by
  simp only [generateContoursChar, hg]
  split_ifs <;> ring

/-- C5, amended, witness at the boundary delta of exactly 32. -/
theorem italic_correction_witness :
    (generateContoursChar faceDelta stDelta 65 10 0).2.1 =
      (let xk := if faceDelta.has_kerning && (stDelta.prev_char_index != 0)
                 then 10 + ((Int.tdiv (faceDelta.kerning
                   stDelta.prev_char_index (faceDelta.char_index 65))
                   64 : Int) : ℚ)
                 else 10
       let corr : ℚ := if 32 ≤ stDelta.prev_rsb_delta - glyphDelta.lsb_delta
                       then -1
                       else if stDelta.prev_rsb_delta - glyphDelta.lsb_delta
                         < -32 then 1
                       else 0
       xk + corr + ((Int.tdiv glyphDelta.advance_x 64 : Int) : ℚ)) :=
  italic_correction faceDelta stDelta 65 10 0 glyphDelta rfl

/-- C6: on every successful `generate` call the mesh gains exactly
2 × (total contour edges over every contour of every character) +
2 × (tessellator cap triangles) triangles, and the appended triangles
are `freshTris`: each one three fresh consecutive vertex indices of its
own (no vertex shared or deduplicated), so the vertex count grows by
exactly three per appended triangle. -/
theorem mesh_closure (face : Face)
    (tessOut : List TessCmd → List (Vec3 × Vec3 × Vec3))
    (pip : Vec2 → Contour → Bool) (st : MesherState) (mesh : Mesh)
    (text : List Nat) (x y extrude : ℚ)
    (hr : st.ready = true) (ht : text ≠ []) :
    (generate face tessOut pip st mesh text x y extrude).1 = true ∧
    (generate face tessOut pip st mesh text x y extrude).2.1.triangles =
      mesh.triangles ++ freshTris mesh.vertices.length
        (2 * totalEdges (generateContoursStr face st text x y []).1 +
          2 * (tessOut (traceAll pip
            (generateContoursStr face st text x y []).1 [])).length) ∧
    (generate face tessOut pip st mesh text x y extrude).2.1.vertices.length =
      mesh.vertices.length +
        3 * (2 * totalEdges (generateContoursStr face st text x y []).1 +
          2 * (tessOut (traceAll pip
            (generateContoursStr face st text x y []).1 [])).length) := by
  rw [generate_success_eq face tessOut pip st mesh text x y extrude hr ht]
  refine ⟨rfl, ?_, ?_⟩
  · rw [addTris_triangles, List.length_append, wallsTris_length,
      capPairs_length]
  · rw [addTris_vertices_length, List.length_append, wallsTris_length,
      capPairs_length]

/-- C6, witness on a one-character text. -/
theorem mesh_closure_witness :
    (generate faceFail tessNone pipNone stReady meshEmpty [65] 0 0 1).1 =
      true ∧
    (generate faceFail tessNone pipNone stReady meshEmpty
        [65] 0 0 1).2.1.triangles =
      meshEmpty.triangles ++ freshTris meshEmpty.vertices.length
        (2 * totalEdges (generateContoursStr faceFail stReady [65] 0 0 []).1 +
          2 * (tessNone (traceAll pipNone
            (generateContoursStr faceFail stReady [65] 0 0 []).1 [])).length) ∧
    (generate faceFail tessNone pipNone stReady meshEmpty
        [65] 0 0 1).2.1.vertices.length =
      meshEmpty.vertices.length +
        3 * (2 * totalEdges (generateContoursStr faceFail stReady [65] 0 0 []).1 +
          2 * (tessNone (traceAll pipNone
            (generateContoursStr faceFail stReady [65] 0 0 []).1 [])).length) :=
  mesh_closure faceFail tessNone pipNone stReady meshEmpty [65] 0 0 1
    rfl (by decide)

/-- C7: in the ready state `generate_contours` appends exactly one
`CharContour` per input character, in input order (the appended
character codes are the text itself, so failed glyphs still get their
empty entry), and the result does not depend on the incoming pen-state
fields because they are reset at the start of the call. -/
theorem layout_one_per_char (face : Face) (st : MesherState)
    (text : List Nat) (x y : ℚ) (cs : List CharContour)
    (hr : st.ready = true) (ht : text ≠ []) :
    (generateContoursStr face st text x y cs).1 =
      cs ++ (contoursLoop face text (resetPen st) x y).1 ∧
    (contoursLoop face text (resetPen st) x y).1.length = text.length ∧
    (contoursLoop face text (resetPen st) x y).1.map
      (fun cc => cc.character) = text ∧
    generateContoursStr face st text x y cs =
      generateContoursStr face (resetPen st) text x y cs := by
  refine ⟨?_, contoursLoop_length face text (resetPen st) x y,
    contoursLoop_map face text (resetPen st) x y, ?_⟩
  · rw [generateContoursStr_ready face st text x y cs hr]
  · rw [generateContoursStr_ready face st text x y cs hr,
      generateContoursStr_ready face (resetPen st) text x y cs hr,
      resetPen_idem]

/-- C7, witness on a two-character text. -/
theorem layout_one_per_char_witness :
    (generateContoursStr faceFail stReady [65, 66] 0 0 []).1 =
      [] ++ (contoursLoop faceFail [65, 66] (resetPen stReady) 0 0).1 ∧
    (contoursLoop faceFail [65, 66] (resetPen stReady) 0 0).1.length =
      [65, 66].length ∧
    (contoursLoop faceFail [65, 66] (resetPen stReady) 0 0).1.map
      (fun cc => cc.character) = [65, 66] ∧
    generateContoursStr faceFail stReady [65, 66] 0 0 [] =
      generateContoursStr faceFail (resetPen stReady) [65, 66] 0 0 [] :=
  layout_one_per_char faceFail stReady [65, 66] 0 0 [] rfl (by decide)

/-- C8: a contour whose clockwise flag is false opens no tessellator
polygon (the trace is unchanged by its cap block, so it contributes no
cap triangles as an outer contour), its side walls are still emitted
(two triangles per edge), and a ready-state call on a non-empty text
still succeeds. -/
theorem ccw_contour_skips_caps (pip : Vec2 → Contour → Bool)
    (ch : List Contour) (index : Nat) (contour : Contour)
    (tr : List TessCmd) (extrude : ℚ) (m : Mesh) (face : Face)
    (tessOut : List TessCmd → List (Vec3 × Vec3 × Vec3))
    (st : MesherState) (mesh : Mesh) (text : List Nat) (x y : ℚ)
    (hcc : contour.clockwise = false) (hr : st.ready = true)
    (ht : text ≠ []) :
    tessContour pip ch index contour tr = tr ∧
    (sideWalls extrude contour m).triangles.length =
      m.triangles.length + 2 * contour.points.length ∧
    (generate face tessOut pip st mesh text x y extrude).1 = true := by
  refine ⟨tessContour_not_clockwise pip ch index contour tr hcc, ?_, ?_⟩
  · rw [sideWalls_eq, addTris_triangles_length, sideTris_length]
  · rw [generate_success_eq face tessOut pip st mesh text x y extrude hr ht]

/-- C8, witness on the concrete counter-clockwise contour. -/
theorem ccw_contour_skips_caps_witness :
    tessContour pipNone [ccwPt] 0 ccwPt [] = [] ∧
    (sideWalls 1 ccwPt meshEmpty).triangles.length =
      meshEmpty.triangles.length + 2 * ccwPt.points.length ∧
    (generate faceFail tessNone pipNone stReady meshEmpty [65] 0 0 1).1 =
      true :=
  ccw_contour_skips_caps pipNone [ccwPt] 0 ccwPt [] 1 meshEmpty faceFail
    tessNone stReady meshEmpty [65] 0 0 rfl rfl (by decide)

/-- C9: when the glyph of a character fails to load, the per-character
extraction returns a `CharContour` with zero contours, the pen x is
not advanced, the state keeps its pen fields (only the current glyph
index is recorded), and the string-level loop continues with the
remaining characters. -/
theorem glyph_failure_skip (face : Face) (st : MesherState) (ch : Nat)
    (x y : ℚ) (rest : List Nat)
    (h : face.glyph (face.char_index ch) = none) :
    generateContoursChar face st ch x y =
      ({ character := ch, contours := [] }, x,
       { st with cur_char_index := face.char_index ch }) ∧
    (contoursLoop face (ch :: rest) st x y).1 =
      ({ character := ch, contours := [] } : CharContour) ::
        (contoursLoop face rest
          { st with cur_char_index := face.char_index ch } x y).1 := by
  have h1 : generateContoursChar face st ch x y =
      ({ character := ch, contours := [] }, x,
       { st with cur_char_index := face.char_index ch }) := by
    simp [generateContoursChar, h]
  refine ⟨h1, ?_⟩
  simp only [contoursLoop, h1]

/-- C9, witness: every glyph of `faceFail` fails. -/
theorem glyph_failure_skip_witness :
    generateContoursChar faceFail stReady 65 0 0 =
      ({ character := 65, contours := [] }, 0,
       { stReady with cur_char_index := faceFail.char_index 65 }) ∧
    (contoursLoop faceFail [65, 66] stReady 0 0).1 =
      ({ character := 65, contours := [] } : CharContour) ::
        (contoursLoop faceFail [66]
          { stReady with cur_char_index := faceFail.char_index 65 } 0 0).1 :=
  glyph_failure_skip faceFail stReady 65 0 0 [66] rfl

/-- C10: in the ready state the string-level `generate_contours` only
appends to the caller-supplied vector: the result is the incoming
entries, unchanged and first, followed by the newly produced ones. -/
theorem contours_append_only (face : Face) (st : MesherState)
    (text : List Nat) (x y : ℚ) (cs : List CharContour)
    (hr : st.ready = true) :
    (generateContoursStr face st text x y cs).1 =
      cs ++ (contoursLoop face text (resetPen st) x y).1 := by
  rw [generateContoursStr_ready face st text x y cs hr]

/-- C10, witness with a non-empty incoming vector. -/
theorem contours_append_only_witness :
    (generateContoursStr faceFail stReady [65] 0 0
        [{ character := 90, contours := [cwTri] }]).1 =
      [{ character := 90, contours := [cwTri] }] ++
        (contoursLoop faceFail [65] (resetPen stReady) 0 0).1 :=
  contours_append_only faceFail stReady [65] 0 0
    [{ character := 90, contours := [cwTri] }] rfl

end TextMesherModel
